import Mathlib

/-!
Verification development for the orb-field particle simulation
(spatial occupancy grid, spawn validation, wall and orb-orb collision,
speed limiting, pause-time accounting, continuous-spawn scheduling).

Modelling conventions:
* Exact rationals (`ℚ`) stand for JavaScript numbers on code paths whose
  operations are rational (grid arithmetic, pause bookkeeping, spawn
  targets, wall collision).
* `JsQ := Option ℚ` stands for JavaScript numbers together with their
  non-finite values on the code paths whose claims concern `isFinite`
  guards: `none` encodes NaN, `+Infinity` and `-Infinity` collectively,
  which the embedded code only ever observes through `isFinite` and
  through comparisons that are false on NaN and decided by the guards
  in the +-Infinity cases.
* Reals (`ℝ`) stand for JavaScript numbers in the speed-limit module,
  whose code uses `Math.sqrt` and a real-exponent `Math.pow`.
* `Math.sqrt` applied to a dynamically computed rational has no rational
  embedding, so the functions that need it take the square root's value
  as an explicit argument; theorems that depend on its value carry the
  defining hypotheses (`d * d = radicand`, `0 ≤ d`) and instantiate them
  exactly, theorems that do not (momentum bookkeeping, finiteness
  preservation) hold for the argument ranges the source can produce.
-/

/-- JavaScript `x | 0` (ToInt32) on a finite value: truncation toward
zero. The 2^32 wrap-around of ToInt32 is not modelled; every quantity
involved stays far below 2^31. -/
def jsTrunc (q : ℚ) : ℤ := if 0 ≤ q then ⌊q⌋ else -⌊-q⌋

/-- JavaScript `Math.round` on a finite value: half-up rounding
(ties go toward +∞). -/
def jsRound (q : ℚ) : ℤ := ⌊q + 1/2⌋

/-! ### Occupancy-grid cell flags

`CELL_EMPTY`, `CELL_PROXIMITY` and `CELL_FILLED` are the values exported
by `shared/types`. The current bit-flag revision of that module (the one
`SpawnValidation` and `OrbGridMarking` import, with a border flag and
`hasCellFlag`) is not among the provided sources, only its callers are. -/

def CELL_EMPTY : ℕ := 0

def CELL_PROXIMITY : ℕ := 1

def CELL_FILLED : ℕ := 2

/-- Modelled from the spec: the permanent "border/wall" cell flag of
`shared/types`, a bit flag that can co-reside with `CELL_PROXIMITY` and
`CELL_FILLED` (spec §2 "values are bit-flags, not exclusive states",
§4.1). Its numeric value is the next free bit after `CELL_FILLED = 2`. -/
def CELL_BORDER : ℕ := 4

/-- Modelled from the spec: `hasCellFlag` of `shared/types`, the bit-flag
membership test used by `SpawnValidation.canSpawn` (spec §2: per-cell
flags "supporting bit-flag combination"). -/
def hasCellFlag (state flag : ℕ) : Bool := state &&& flag != 0

/-- Grid dimensions, the part of `GridConfig` (grid/types.ts) that the
grid data structure reads; the world-coordinate and conversion fields of
the source interface are not used by any embedded function. -/
structure GridConfigL where
  cellsX : ℕ
  cellsY : ℕ
  layers : ℕ
deriving DecidableEq, Repr

/-- `SpatialGrid` (grid/core/SpatialGrid.ts): a flat byte buffer of
`cellsX * cellsY * layers` cells, modelled as a list of bytes. -/
structure SpatialGrid where
  config : GridConfigL
  cells : List ℕ
deriving DecidableEq, Repr

namespace SpatialGrid

/-- `getIndex`: flat array index of a 3D cell coordinate. -/
def getIndex (g : SpatialGrid) (cellX cellY layer : ℤ) : ℤ :=
  layer * g.config.cellsX * g.config.cellsY + cellY * g.config.cellsX + cellX

/-- `isInBounds`: whether the coordinates are within the grid bounds. -/
def isInBounds (g : SpatialGrid) (cellX cellY layer : ℤ) : Bool :=
  0 ≤ cellX && cellX < (g.config.cellsX : ℤ) &&
  (0 ≤ cellY && cellY < (g.config.cellsY : ℤ)) &&
  (0 ≤ layer && layer < (g.config.layers : ℤ))

/-- `getCell`: cell state at the given coordinates, `CELL_EMPTY` when out
of bounds. -/
def getCell (g : SpatialGrid) (cellX cellY layer : ℤ) : ℕ :=
  if g.isInBounds cellX cellY layer then
    g.cells.getD (g.getIndex cellX cellY layer).toNat 0
  else CELL_EMPTY

/-- `setCell`: overwrite the cell state; no-op when out of bounds. The
`% 256` is the byte masking of the backing `Uint8Array`. -/
def setCell (g : SpatialGrid) (cellX cellY layer : ℤ) (state : ℕ) : SpatialGrid :=
  if g.isInBounds cellX cellY layer then
    { g with cells := g.cells.set (g.getIndex cellX cellY layer).toNat (state % 256) }
  else g

/-- Modelled from the spec: `addCellFlag` of `grid/core/SpatialGrid`
(spec §4.1 "addCellFlag / removeCellFlag: bitwise OR / AND-NOT,
preserving co-resident flags", together with §8's "setCell/addCellFlag
on out-of-bounds coordinates are no-ops"); the method itself is not
among the provided sources, only its callers are. -/
def addCellFlag (g : SpatialGrid) (cellX cellY layer : ℤ) (flag : ℕ) : SpatialGrid :=
  if g.isInBounds cellX cellY layer then
    let idx := (g.getIndex cellX cellY layer).toNat
    { g with cells := g.cells.set idx ((g.cells.getD idx 0 ||| flag) % 256) }
  else g

/-- Modelled from the spec: `removeCellFlag` of `grid/core/SpatialGrid`
(spec §4.1: bitwise AND-NOT, preserving co-resident flags). -/
def removeCellFlag (g : SpatialGrid) (cellX cellY layer : ℤ) (flag : ℕ) : SpatialGrid :=
  if g.isInBounds cellX cellY layer then
    let idx := (g.getIndex cellX cellY layer).toNat
    { g with cells := g.cells.set idx (g.cells.getD idx 0 &&& (255 ^^^ flag)) }
  else g

/-- Modelled from the spec: `isWall` of `grid/core/SpatialGrid`
(spec §4.1 "isWall(x,y,layer): true only for the permanent border
flag"); out of bounds it reads `CELL_EMPTY` and is therefore false
(spec §8). -/
def isWall (g : SpatialGrid) (cellX cellY layer : ℤ) : Bool :=
  hasCellFlag (g.getCell cellX cellY layer) CELL_BORDER

end SpatialGrid

/-- The fields of `ViewportCells` (grid/types.ts) read by the embedded
functions (`canSpawn`, `checkMove`, `resolveCollisions`); the remaining
fields of the source interface (`endCellX/Y`, `cellSizeXPx/YPx`,
`cellSizeXCm/YCm`) are not read by any of them. -/
structure ViewportCells where
  startCellX : ℤ
  startCellY : ℤ
  invCellSizeXPx : ℚ
  invCellSizeYPx : ℚ
deriving DecidableEq, Repr

/-- The integers from `a` to `b` inclusive, the index set of a JavaScript
`for (let i = a; i <= b; i++)` loop. -/
def intRange (a b : ℤ) : List ℤ :=
  (List.range (b - a + 1).toNat).map fun (i : ℕ) => a + (i : ℤ)

/-- `SpawnValidation.canSpawn` (collision/SpawnValidation.ts): size-1 orbs
check the single center cell for the filled or border flag; larger orbs
check the discretized sphere of radius `size - 1` around it and block if
any cell in the footprint carries the filled or border flag.
The source's early-`return false` triple loop is the `List.all` fold. -/
def canSpawn (pxX pxY z : ℚ) (size : ℕ) (grid : SpatialGrid) (vpc : ViewportCells) : Bool :=
  let centerCellX := jsTrunc (pxX * vpc.invCellSizeXPx) + vpc.startCellX
  let centerCellY := jsTrunc (pxY * vpc.invCellSizeYPx) + vpc.startCellY
  let centerLayer := jsRound z
  if size = 1 then
    let state := grid.getCell centerCellX centerCellY centerLayer
    !hasCellFlag state CELL_FILLED && !hasCellFlag state CELL_BORDER
  else
    let radius : ℤ := (size : ℤ) - 1
    (intRange (-radius) radius).all fun dz =>
      (intRange (-radius) radius).all fun dy =>
        (intRange (-radius) radius).all fun dx =>
          if dx * dx + dy * dy + dz * dz ≤ radius * radius then
            let state := grid.getCell (centerCellX + dx) (centerCellY + dy) (centerLayer + dz)
            !(hasCellFlag state CELL_FILLED || hasCellFlag state CELL_BORDER)
          else true

/-! ### JavaScript numbers with non-finite values -/

/-- A JavaScript number: `some q` is a finite value, `none` stands for the
non-finite values (NaN, `+Infinity`, `-Infinity`). The embedded code only
observes non-finite values through `isFinite` and through `<`-comparisons
whose outcome it then conjoins with an `isFinite` guard, so the three
non-finite values need not be distinguished. -/
abbrev JsQ := Option ℚ

/-- JavaScript `isFinite`. -/
def JsQ.isFinite (x : JsQ) : Bool := x.isSome

/-- JavaScript `+` on numbers; any non-finite operand yields a non-finite
result. (A finite sum is modelled as exact: float rounding and overflow
to infinity are outside the model.) -/
def jsAdd : JsQ → JsQ → JsQ
  | some a, some b => some (a + b)
  | _, _ => none

/-- JavaScript `-` on numbers. -/
def jsSub : JsQ → JsQ → JsQ
  | some a, some b => some (a - b)
  | _, _ => none

/-- JavaScript `*` on numbers. -/
def jsMul : JsQ → JsQ → JsQ
  | some a, some b => some (a * b)
  | _, _ => none

/-- JavaScript `/` on numbers: division by zero and any non-finite
operand yield a non-finite result. -/
def jsDiv : JsQ → JsQ → JsQ
  | some a, some b => if b = 0 then none else some (a / b)
  | _, _ => none

/-- JavaScript `<` on numbers. Comparisons against NaN are false; the
embedded code compares a possibly-`+Infinity` value only where the
false answer coincides with JavaScript's (`distSq < bound` with
`distSq = +Infinity`) or where a conjoined `isFinite` guard discards the
difference (`dvn > 0 && isFinite(dvn)`). -/
def jsLt : JsQ → JsQ → Bool
  | some a, some b => a < b
  | _, _ => false

/-- JavaScript `Math.sqrt` with the root's finite value supplied as the
argument `r` (an exact rational square root does not exist in general):
NaN for a non-finite or negative radicand, `r` otherwise. Theorems whose
conclusion depends on the root's value carry `r * r = radicand` and
`0 ≤ r` as hypotheses. -/
def jsSqrtP (x : JsQ) (r : ℚ) : JsQ :=
  match x with
  | none => none
  | some a => if a < 0 then none else some r

/-- An orb as read and written by the collision and repulsion phases:
pixel position, continuous depth, velocity (`JsQ`: the fields the
`isFinite` guards protect) and size. `size` is a plain rational because
it is a positive integer fixed at spawn time and never written by any
physics phase; the `id`, `speed`, timing and wander fields of the source
record are not read by the embedded functions, and the `angle` resync
(`Math.atan2`, transcendental) at the end of each phase is not modelled
since no claim mentions the angle. -/
structure OrbJs where
  pxX : JsQ
  pxY : JsQ
  z : JsQ
  vx : JsQ
  vy : JsQ
  vz : JsQ
  size : ℚ
deriving DecidableEq, Repr

/-- All position and velocity fields are finite. -/
def OrbJs.Finite (o : OrbJs) : Prop :=
  o.pxX.isSome ∧ o.pxY.isSome ∧ o.z.isSome ∧
  o.vx.isSome ∧ o.vy.isSome ∧ o.vz.isSome

instance (o : OrbJs) : Decidable o.Finite := by
  unfold OrbJs.Finite; infer_instance

/-- `OrbMovement.updatePosition` (orb/core/OrbMovement.ts): integrate
position by `velocity * deltaTime`, skipping entirely on an invalid
`deltaTime` and committing each axis only if the result is finite. -/
def updatePositionJs (orb : OrbJs) (deltaTime : JsQ) : OrbJs :=
  if !deltaTime.isFinite || !jsLt (some 0) deltaTime || jsLt (some 1) deltaTime then orb
  else
    let newX := jsAdd orb.pxX (jsMul orb.vx deltaTime)
    let newY := jsAdd orb.pxY (jsMul orb.vy deltaTime)
    let newZ := jsAdd orb.z (jsMul orb.vz deltaTime)
    { orb with
      pxX := if newX.isFinite then newX else orb.pxX
      pxY := if newY.isFinite then newY else orb.pxY
      z := if newZ.isFinite then newZ else orb.z }

/-- Body of the per-orb loop of `MouseRepulsion.applyRepulsion`
(collision/MouseRepulsion.ts), including the whole-call guard on a
non-finite mouse position. `deltaTime` is a plain rational: it is the
finite frame time `(performance.now() - last) / 1000` computed by
`useAnimationLoop`. `distR` supplies the value of `Math.sqrt(distSq)`
(see `jsSqrtP`). The source's default `repulsionRadius = 150` and
`repulsionStrength = 80` are what `usePhysicsLoop` passes. -/
def applyRepulsionStep (orb : OrbJs) (mouseX mouseY : JsQ) (deltaTime : ℚ)
    (distR : ℚ) (repulsionRadius : ℚ := 150) (repulsionStrength : ℚ := 80) : OrbJs :=
  if !mouseX.isFinite || !mouseY.isFinite then orb
  else
    let dx := jsSub orb.pxX mouseX
    let dy := jsSub orb.pxY mouseY
    let distSq := jsAdd (jsMul dx dx) (jsMul dy dy)
    if !jsLt distSq (some (repulsionRadius * repulsionRadius)) || jsLt distSq (some 1) then orb
    else
      let dist := jsSqrtP distSq distR
      let normalizedDist := jsDiv dist (some repulsionRadius)
      let falloff := jsSub (some 1) normalizedDist
      let acceleration := jsMul (jsMul falloff falloff) (some repulsionStrength)
      let nx := jsDiv dx dist
      let ny := jsDiv dy dist
      if acceleration.isFinite && nx.isFinite && ny.isFinite then
        { orb with
          vx := jsAdd orb.vx (jsMul (jsMul acceleration nx) (some deltaTime))
          vy := jsAdd orb.vy (jsMul (jsMul acceleration ny) (some deltaTime)) }
      else orb

/-- The "Position correction" block of `OrbOrbCollision.resolveCollisions`
(collision/OrbOrbCollision.ts, lines 81-108): push an overlapping pair
apart along the collision normal, distributing the separation by mass
and guarding the commit with `isFinite` checks. -/
def positionCorrection (orbA orbB : OrbJs) (nx ny nz overlap overlapRat : JsQ)
    (massA massB totalMass : ℚ) (vpc : ViewportCells) : OrbJs × OrbJs :=
  if jsLt (some 0) overlap then
    let separationMultiplier := jsAdd (some (6/5)) (jsMul (some (4/5)) overlapRat)
    let separationA := jsMul (jsDiv (jsMul overlap (some massB)) (some totalMass)) separationMultiplier
    let separationB := jsMul (jsDiv (jsMul overlap (some massA)) (some totalMass)) separationMultiplier
    let cellSizeXPx := 1 / vpc.invCellSizeXPx
    let cellSizeYPx := 1 / vpc.invCellSizeYPx
    if separationA.isFinite && separationB.isFinite &&
        nx.isFinite && ny.isFinite && nz.isFinite then
      ({ orbA with
          pxX := jsSub orbA.pxX (jsMul (jsMul nx separationA) (some cellSizeXPx))
          pxY := jsSub orbA.pxY (jsMul (jsMul ny separationA) (some cellSizeYPx))
          z := jsSub orbA.z (jsMul nz separationA) },
       { orbB with
          pxX := jsAdd orbB.pxX (jsMul (jsMul nx separationB) (some cellSizeXPx))
          pxY := jsAdd orbB.pxY (jsMul (jsMul ny separationB) (some cellSizeYPx))
          z := jsAdd orbB.z (jsMul nz separationB) })
    else (orbA, orbB)
  else (orbA, orbB)

/-- The "Velocity resolution" block of `OrbOrbCollision.resolveCollisions`
(collision/OrbOrbCollision.ts, lines 110-153): the mass-weighted
elastic impulse (restitution 0.8 = 4/5) when the pair is approaching,
otherwise the minimum separation impulse (20 px/s scaled by the overlap
ratio, Z scaled by 0.05 = 1/20) when the overlap ratio exceeds 0.3;
each commit is guarded by `isFinite` checks on the impulses. -/
def velocityResolution (a b : OrbJs) (nx ny nz overlapRat : JsQ)
    (massA massB totalMass : ℚ) : OrbJs × OrbJs :=
  let dvx := jsSub a.vx b.vx
  let dvy := jsSub a.vy b.vy
  let dvz := jsSub a.vz b.vz
  let dvn := jsAdd (jsAdd (jsMul dvx nx) (jsMul dvy ny)) (jsMul dvz nz)
  let minSeparationSpeed : ℚ := 20
  if jsLt (some 0) dvn && dvn.isFinite then
    let elasticity : ℚ := 4/5
    let impulseA := jsMul (jsDiv (some (elasticity * massB)) (some totalMass)) dvn
    let impulseB := jsMul (jsDiv (some (elasticity * massA)) (some totalMass)) dvn
    if impulseA.isFinite && impulseB.isFinite then
      ({ a with
          vx := jsSub a.vx (jsMul impulseA nx)
          vy := jsSub a.vy (jsMul impulseA ny)
          vz := jsSub a.vz (jsMul impulseA nz) },
       { b with
          vx := jsAdd b.vx (jsMul impulseB nx)
          vy := jsAdd b.vy (jsMul impulseB ny)
          vz := jsAdd b.vz (jsMul impulseB nz) })
    else (a, b)
  else if jsLt (some (3/10)) overlapRat then
    let separationImpulse := jsMul (some minSeparationSpeed) overlapRat
    let impulseA := jsMul separationImpulse (jsDiv (some massB) (some totalMass))
    let impulseB := jsMul separationImpulse (jsDiv (some massA) (some totalMass))
    if impulseA.isFinite && impulseB.isFinite then
      ({ a with
          vx := jsSub a.vx (jsMul impulseA nx)
          vy := jsSub a.vy (jsMul impulseA ny)
          vz := jsSub a.vz (jsMul (jsMul impulseA nz) (some (1/20))) },
       { b with
          vx := jsAdd b.vx (jsMul impulseB nx)
          vy := jsAdd b.vy (jsMul impulseB ny)
          vz := jsAdd b.vz (jsMul (jsMul impulseB nz) (some (1/20))) })
    else (a, b)
  else (a, b)

/-- Body of the pairwise loop of `OrbOrbCollision.resolveCollisions`
(collision/OrbOrbCollision.ts, lines 33-158) for one pair
`(orbA, orbB)`: overlap test, collision normal, position correction,
velocity resolution. `distR` supplies the value of `Math.sqrt(distSq)`
(see `jsSqrtP`; the source only evaluates it with `distSq ≥ 0.001`, so
`distR ≥ √0.001 > 0` in every run of the source); `rnx`, `rny`, `rnz`
stand for the random unit direction
`(cos a * cos p, sin a * cos p, sin p)` that the source draws for the
degenerate same-position case (finite, being values of cos/sin).
The trailing `angle` resync is not modelled (see `OrbJs`). -/
def resolveCollisionPair (orbA orbB : OrbJs) (vpc : ViewportCells)
    (distR rnx rny rnz : ℚ) : OrbJs × OrbJs :=
  let cellAX := jsMul orbA.pxX (some vpc.invCellSizeXPx)
  let cellAY := jsMul orbA.pxY (some vpc.invCellSizeYPx)
  let cellAZ := orbA.z
  let cellBX := jsMul orbB.pxX (some vpc.invCellSizeXPx)
  let cellBY := jsMul orbB.pxY (some vpc.invCellSizeYPx)
  let cellBZ := orbB.z
  let dx := jsSub cellBX cellAX
  let dy := jsSub cellBY cellAY
  let dz := jsSub cellBZ cellAZ
  let distSq := jsAdd (jsAdd (jsMul dx dx) (jsMul dy dy)) (jsMul dz dz)
  let radiusA := orbA.size - 1
  let radiusB := orbB.size - 1
  let minDist := radiusA + radiusB + 1
  if jsLt distSq (some (minDist * minDist)) then
    let dist : JsQ := if jsLt distSq (some (1/1000)) then some (1/1000) else jsSqrtP distSq distR
    let nx : JsQ := if jsLt distSq (some (1/1000)) then some rnx else jsDiv dx dist
    let ny : JsQ := if jsLt distSq (some (1/1000)) then some rny else jsDiv dy dist
    let nz : JsQ := if jsLt distSq (some (1/1000)) then some rnz else jsDiv dz dist
    let massA := orbA.size
    let massB := orbB.size
    let totalMass := massA + massB
    let overlap := jsSub (some minDist) dist
    let overlapRat := if jsLt (some 0) overlap then jsDiv overlap (some minDist) else some 0
    let corrected := positionCorrection orbA orbB nx ny nz overlap overlapRat massA massB totalMass vpc
    velocityResolution corrected.1 corrected.2 nx ny nz overlapRat massA massB totalMass
  else (orbA, orbB)

/-! ### Wall collision (exact-rational module)

Wall collision arithmetic is rational, so it is embedded over plain `ℚ`;
the `isFinite` guards of the source, which are identically true on exact
rationals, are modelled on the `JsQ` side (`updatePositionJs`). -/

/-- An orb as read by the wall-collision phase, over exact rationals. -/
structure OrbQ where
  pxX : ℚ
  pxY : ℚ
  z : ℚ
  vx : ℚ
  vy : ℚ
  vz : ℚ
  size : ℕ
deriving DecidableEq, Repr

/-- `CollisionResult` (collision/types.ts). -/
structure CollisionResult where
  blocked : Bool
  reflectX : Bool
  reflectY : Bool
  reflectZ : Bool
deriving DecidableEq, Repr

/-- `WallCollision.checkMove` (collision/WallCollision.ts): test each axis
independently against wall cells at the next position (single cell for
size 1, the discretized sphere of radius `size - 1` for larger orbs);
an axis's flag is set exactly when some tested cell on that axis's probe
is a wall. The source's flag-setting triple loop is the `List.any` fold
per axis. -/
def checkMove (orb : OrbQ) (deltaTime : ℚ) (grid : SpatialGrid) (vpc : ViewportCells) :
    CollisionResult :=
  let nextX := orb.pxX + orb.vx * deltaTime
  let nextY := orb.pxY + orb.vy * deltaTime
  let nextZ := orb.z + orb.vz * deltaTime
  let currCellX := jsTrunc (orb.pxX * vpc.invCellSizeXPx) + vpc.startCellX
  let currCellY := jsTrunc (orb.pxY * vpc.invCellSizeYPx) + vpc.startCellY
  let currLayer := jsRound orb.z
  let nextCellX := jsTrunc (nextX * vpc.invCellSizeXPx) + vpc.startCellX
  let nextCellY := jsTrunc (nextY * vpc.invCellSizeYPx) + vpc.startCellY
  let nextLayer := jsRound nextZ
  if orb.size = 1 then
    let blockedX := grid.isWall nextCellX currCellY currLayer
    let blockedY := grid.isWall currCellX nextCellY currLayer
    let blockedZ := grid.isWall currCellX currCellY nextLayer
    { blocked := blockedX || blockedY || blockedZ
      reflectX := blockedX, reflectY := blockedY, reflectZ := blockedZ }
  else
    let radius : ℤ := (orb.size : ℤ) - 1
    let inSphere := fun (dx dy dz : ℤ) => dx * dx + dy * dy + dz * dz ≤ radius * radius
    let blockedX := (intRange (-radius) radius).any fun dz =>
      (intRange (-radius) radius).any fun dy =>
        (intRange (-radius) radius).any fun dx =>
          decide (inSphere dx dy dz) && grid.isWall (nextCellX + dx) (currCellY + dy) (currLayer + dz)
    let blockedY := (intRange (-radius) radius).any fun dz =>
      (intRange (-radius) radius).any fun dy =>
        (intRange (-radius) radius).any fun dx =>
          decide (inSphere dx dy dz) && grid.isWall (currCellX + dx) (nextCellY + dy) (currLayer + dz)
    let blockedZ := (intRange (-radius) radius).any fun dz =>
      (intRange (-radius) radius).any fun dy =>
        (intRange (-radius) radius).any fun dx =>
          decide (inSphere dx dy dz) && grid.isWall (currCellX + dx) (currCellY + dy) (nextLayer + dz)
    { blocked := blockedX || blockedY || blockedZ
      reflectX := blockedX, reflectY := blockedY, reflectZ := blockedZ }

/-- `WallCollision.applyReflection`: negate the velocity components of the
specified axes (`angle` resync not modelled, see `OrbJs`). -/
def applyReflection (orb : OrbQ) (reflectX reflectY reflectZ : Bool) : OrbQ :=
  { orb with
    vx := if reflectX then -orb.vx else orb.vx
    vy := if reflectY then -orb.vy else orb.vy
    vz := if reflectZ then -orb.vz else orb.vz }

/-- `OrbMovement.updatePosition` over exact rationals (the `isFinite`
result guards of the source are identically true here; they are modelled
in `updatePositionJs`). -/
def updatePositionQ (orb : OrbQ) (deltaTime : ℚ) : OrbQ :=
  if deltaTime ≤ 0 || 1 < deltaTime then orb
  else { orb with
    pxX := orb.pxX + orb.vx * deltaTime
    pxY := orb.pxY + orb.vy * deltaTime
    z := orb.z + orb.vz * deltaTime }

/-- Phase 6 of `runPhysics` (hooks/usePhysicsLoop.ts, lines 123-132) for
one orb: wall check, reflection of the blocked axes, position
integration. The surrounding `clearOrbCircular` / `markOrbCircular`
calls only write the `CELL_PROXIMITY` and `CELL_FILLED` bits
(orb/core/OrbGridMarking.ts) and `checkMove` reads cells only through
`isWall`, which tests the `CELL_BORDER` bit, so the marking calls cannot
change the result (`isWall_addCellFlag_dynamic` below makes this
precise) and are elided from the per-orb step. -/
def phase6Tick (orb : OrbQ) (deltaTime : ℚ) (grid : SpatialGrid) (vpc : ViewportCells) :
    OrbQ × CollisionResult :=
  let c := checkMove orb deltaTime grid vpc
  let orb1 := if c.blocked then applyReflection orb c.reflectX c.reflectY c.reflectZ else orb
  (updatePositionQ orb1 deltaTime, c)

/-! ### Pause time tracking -/

/-- The two refs of `usePauseTimeTracking` (hooks/usePauseTimeTracking.ts):
the wall-clock instant at which the current pause began (if paused) and
the total wall-clock time spent paused before that. -/
structure PauseState where
  pausedAt : Option ℚ
  pausedTimeOffset : ℚ
deriving DecidableEq, Repr

/-- `handlePauseChange` (hooks/usePauseTimeTracking.ts): on a
pause transition record the current time; on a resume transition add the
pause's wall-clock length to the accumulated offset and clear the mark.
`now` is the value of `performance.now()`. -/
def handlePauseChange (wasPaused isPaused : Bool) (now : ℚ) (s : PauseState) : PauseState :=
  if !wasPaused && isPaused then { s with pausedAt := some now }
  else if wasPaused && !isPaused then
    match s.pausedAt with
    | some t => { pausedAt := none, pausedTimeOffset := s.pausedTimeOffset + (now - t) }
    | none => s
  else s

/-- `getEffectiveTime` (hooks/usePauseTimeTracking.ts): the frozen time
`pausedAt - offset` while paused, `now - offset` otherwise. -/
def getEffectiveTime (pausePhysics : Bool) (now : ℚ) (s : PauseState) : ℚ :=
  match s.pausedAt with
  | some t => if pausePhysics then t - s.pausedTimeOffset else now - s.pausedTimeOffset
  | none => now - s.pausedTimeOffset

/-! ### Continuous-spawn target count -/

/-- `ContinuousSpawnConfig` (orb/config/ContinuousSpawnConfig.ts), the
fields read by the phase-10 target computation. -/
structure ContinuousSpawnConfig where
  targetOrbCountAt4K : ℚ
  referenceScreenArea : ℚ
  minOrbCount : ℚ
deriving DecidableEq, Repr

/-- `DEFAULT_CONTINUOUS_SPAWN_CONFIG` (orb/config/ContinuousSpawnConfig.ts). -/
def DEFAULT_CONTINUOUS_SPAWN_CONFIG : ContinuousSpawnConfig :=
  { targetOrbCountAt4K := 600
    referenceScreenArea := 3840 * 2160
    minOrbCount := 50 }

/-- Phase 10 of `runPhysics` (hooks/usePhysicsLoop.ts, lines 165-168):
the continuous-respawn target particle count for a window of the given
pixel dimensions. -/
def computeTargetCount (cfg : ContinuousSpawnConfig) (width height : ℚ) : ℚ :=
  let screenArea := width * height
  let areaScale := screenArea / cfg.referenceScreenArea
  let scaledCount := ((jsRound (cfg.targetOrbCountAt4K * areaScale) : ℤ) : ℚ)
  max cfg.minOrbCount scaledCount

/-- The spec's formula for the respawn target (spec §4.5: "actual target =
`max(minCount, round(referenceCount × (screenArea/referenceArea)))`"),
stated independently of the source for comparison. -/
def specTargetCount (minCount refCount screenArea refArea : ℚ) : ℚ :=
  max minCount ((jsRound (refCount * (screenArea / refArea)) : ℤ) : ℚ)

/-! ### Speed limiting (real module) -/

/-- An orb as read by the speed-limit phase, over reals (the module uses
`Math.sqrt` and a real-exponent `Math.pow`). -/
structure OrbR where
  vx : ℝ
  vy : ℝ
  vz : ℝ
  speed : ℝ
  size : ℝ

/-- `OrbMovement.getMaxSpeed` (orb/core/OrbMovement.ts): the size-derived
speed cap `max(minMaxSpeed, baseMaxSpeed / sqrt(size))`. -/
noncomputable def getMaxSpeed (size baseMaxSpeed minMaxSpeed : ℝ) : ℝ :=
  max minMaxSpeed (baseMaxSpeed / Real.sqrt size)

/-- The combined 3D speed the speed limiter compares against the cap:
`sqrt(vx² + vy² + (vz*20)²)` (Z scaled by 20 to be commensurable with
XY). -/
noncomputable def currentSpeed3D (orb : OrbR) : ℝ :=
  Real.sqrt (orb.vx * orb.vx + orb.vy * orb.vy + (orb.vz * 20) * (orb.vz * 20))

/-- `OrbMovement.applySpeedLimit` (orb/core/OrbMovement.ts): skip below
the 0.001 degenerate threshold; above the cap, decay the speed toward
the cap by the framerate-independent smoothing factor
`1 - (1 - decelerationRate)^(deltaTime*60)` and rescale the velocity. -/
noncomputable def applySpeedLimit (orb : OrbR)
    (baseMaxSpeed minMaxSpeed decelerationRate deltaTime : ℝ) : OrbR :=
  let vzScaled := orb.vz * 20
  let currentSpeed := Real.sqrt (orb.vx * orb.vx + orb.vy * orb.vy + vzScaled * vzScaled)
  if currentSpeed < 0.001 then orb
  else
    let maxSpeed := getMaxSpeed orb.size baseMaxSpeed minMaxSpeed
    if maxSpeed < currentSpeed then
      let smoothFactor := 1 - (1 - decelerationRate) ^ (deltaTime * 60)
      let newSpeed := currentSpeed + (maxSpeed - currentSpeed) * smoothFactor
      let scale := newSpeed / currentSpeed
      { orb with
        vx := orb.vx * scale
        vy := orb.vy * scale
        vz := orb.vz * scale
        speed := Real.sqrt (orb.vx * scale * (orb.vx * scale) + orb.vy * scale * (orb.vy * scale)) }
    else orb

/-! ### Supporting lemmas -/

/-- Adding a dynamic flag (one without the border bit, such as
`CELL_PROXIMITY` or `CELL_FILLED`) to a cell never changes `isWall`:
this is why the `markOrbCircular`/`clearOrbCircular` calls surrounding
the wall check in phase 6 cannot affect its result. -/
theorem isWall_addCellFlag_dynamic (g : SpatialGrid) (x y l x' y' l' : ℤ) (flag : ℕ)
    (h : flag &&& CELL_BORDER = 0) :
    (g.addCellFlag x y l flag).isWall x' y' l' = g.isWall x' y' l' := by
  have hbit : ∀ w : ℕ, hasCellFlag w CELL_BORDER = w.testBit 2 := by
    intro w
    rw [hasCellFlag, CELL_BORDER, show (4:ℕ) = 2^2 by norm_num, Nat.and_two_pow]
    cases hw : w.testBit 2 <;> simp [hw]
  have hflag : flag.testBit 2 = false := by
    rw [← hbit flag]
    simp [hasCellFlag, h]
  have aux : ∀ (cfg : GridConfigL) (cells : List ℕ) (idx : ℕ) (w : ℕ),
      w.testBit 2 = (cells.getD idx 0).testBit 2 →
      ((SpatialGrid.mk cfg (cells.set idx w)).getCell x' y' l').testBit 2
        = ((SpatialGrid.mk cfg cells).getCell x' y' l').testBit 2 := by
    intro cfg cells idx w hw
    simp only [SpatialGrid.getCell, SpatialGrid.isInBounds, SpatialGrid.getIndex]
    split
    case isFalse => rfl
    case isTrue hb =>
      by_cases hidx : idx = ((l' * cfg.cellsX * cfg.cellsY + y' * cfg.cellsX + x' : ℤ)).toNat
      · rw [← hidx]
        by_cases hlen : idx < cells.length
        · rw [List.getD_eq_getElem?_getD, List.getElem?_set, if_pos rfl]
          simp only [hlen, if_true, Option.getD_some]
          exact hw
        · rw [List.set_eq_of_length_le (by omega)]
      · rw [List.getD_eq_getElem?_getD, List.getElem?_set, if_neg hidx,
          ← List.getD_eq_getElem?_getD]
  rw [SpatialGrid.isWall, SpatialGrid.isWall, hbit, hbit, SpatialGrid.addCellFlag]
  split
  case isFalse => rfl
  case isTrue hin =>
    have hv : ((g.cells.getD (g.getIndex x y l).toNat 0 ||| flag) % 256).testBit 2
        = (g.cells.getD (g.getIndex x y l).toNat 0).testBit 2 := by
      rw [show (256:ℕ) = 2^8 by norm_num, Nat.testBit_mod_two_pow]
      simp [Nat.testBit_or, hflag]
    exact aux g.config g.cells (g.getIndex x y l).toNat _ hv

/-! ### C7: out-of-bounds grid access fails open -/

/-- C7: for every (cellX, cellY, layer) outside
[0,cellsX) x [0,cellsY) x [0,layers), `getCell` returns `CELL_EMPTY` and
`isWall` returns false, and `setCell` / `addCellFlag` with out-of-bounds
coordinates are no-ops that leave the entire cell buffer (and the whole
grid value) unchanged. -/
theorem grid_out_of_bounds_fail_open (g : SpatialGrid) (x y l : ℤ) (state flag : ℕ)
    (h : g.isInBounds x y l = false) :
    g.getCell x y l = CELL_EMPTY ∧
    g.isWall x y l = false ∧
    (g.setCell x y l state).cells = g.cells ∧
    (g.addCellFlag x y l flag).cells = g.cells := by
  refine ⟨?_, ?_, ?_, ?_⟩
  · rw [SpatialGrid.getCell, if_neg (by simp [h])]
  · rw [SpatialGrid.isWall, SpatialGrid.getCell, if_neg (by simp [h])]
    rfl
  · rw [SpatialGrid.setCell, if_neg (by simp [h])]
  · rw [SpatialGrid.addCellFlag, if_neg (by simp [h])]

/-- Witness for C7 on a concrete 2x2x1 grid and the out-of-bounds
coordinate (5, 0, 0). -/
theorem grid_out_of_bounds_fail_open_witness :
    (SpatialGrid.mk ⟨2, 2, 1⟩ (List.replicate 4 0)).isInBounds 5 0 0 = false ∧
    ((SpatialGrid.mk ⟨2, 2, 1⟩ (List.replicate 4 0)).getCell 5 0 0 = CELL_EMPTY ∧
     (SpatialGrid.mk ⟨2, 2, 1⟩ (List.replicate 4 0)).isWall 5 0 0 = false ∧
     ((SpatialGrid.mk ⟨2, 2, 1⟩ (List.replicate 4 0)).setCell 5 0 0 7).cells
        = (SpatialGrid.mk ⟨2, 2, 1⟩ (List.replicate 4 0)).cells ∧
     ((SpatialGrid.mk ⟨2, 2, 1⟩ (List.replicate 4 0)).addCellFlag 5 0 0 2).cells
        = (SpatialGrid.mk ⟨2, 2, 1⟩ (List.replicate 4 0)).cells) :=
  ⟨by decide, grid_out_of_bounds_fail_open _ 5 0 0 7 2 (by decide)⟩

/-! ### C3: area-scaled continuous-spawn target -/

/-- C3: the continuous-respawn target equals
`max(minOrbCount, round(targetOrbCountAt4K * screenArea / referenceScreenArea))`
(the spec formula `specTargetCount`); with the default configuration a
1920x1080 window yields exactly 150 and a 400x300 window clamps to the
floor of 50. -/
theorem continuous_spawn_target_count :
    (∀ (cfg : ContinuousSpawnConfig) (w h : ℚ),
      computeTargetCount cfg w h =
        specTargetCount cfg.minOrbCount cfg.targetOrbCountAt4K (w * h) cfg.referenceScreenArea) ∧
    computeTargetCount DEFAULT_CONTINUOUS_SPAWN_CONFIG 1920 1080 = 150 ∧
    computeTargetCount DEFAULT_CONTINUOUS_SPAWN_CONFIG 400 300 = 50 := by
  refine ⟨fun cfg w h => rfl, ?_, ?_⟩ <;>
    norm_num [computeTargetCount, DEFAULT_CONTINUOUS_SPAWN_CONFIG, jsRound]

/-! ### C4: effective time excludes paused duration -/

/-- C4: for a pause beginning at wall-clock `t1` and resuming at `t2`
(duration `T = t2 - t1`), the effective time is frozen at its pre-pause
value `getEffectiveTime false t1 s` for the whole pause, and at any
wall-clock instant `t2 + u` after resume it equals that pre-pause value
plus `u`, the wall-clock time elapsed after resume - the paused duration
`T` contributes nothing, so no age computed from effective time jumps
by `T` across the pause/resume cycle. -/
theorem effective_time_excludes_pause (s : PauseState) (t1 t2 u t : ℚ)
    (h : s.pausedAt = none) :
    getEffectiveTime true t (handlePauseChange false true t1 s) =
      getEffectiveTime false t1 s ∧
    getEffectiveTime false (t2 + u)
        (handlePauseChange true false t2 (handlePauseChange false true t1 s)) =
      getEffectiveTime false t1 s + u := by
  constructor
  · simp [handlePauseChange, getEffectiveTime, h]
  · simp [handlePauseChange, getEffectiveTime, h]
    ring

/-- Witness for C4: pause at 10, resume at 25 (a 15-unit pause), queried
at 17 while paused and 3 units after resume. -/
theorem effective_time_excludes_pause_witness :
    getEffectiveTime true 17 (handlePauseChange false true 10 (PauseState.mk none 0)) =
      getEffectiveTime false 10 (PauseState.mk none 0) ∧
    getEffectiveTime false (25 + 3)
        (handlePauseChange true false 25 (handlePauseChange false true 10 (PauseState.mk none 0))) =
      getEffectiveTime false 10 (PauseState.mk none 0) + 3 :=
  effective_time_excludes_pause (PauseState.mk none 0) 10 25 3 17 rfl

/-! ### C8: speed-cap monotonicity and floor -/

/-- C8: for fixed (nonnegative) `baseMaxSpeed` and any `minMaxSpeed`, the
speed cap `getMaxSpeed(size) = max(minMaxSpeed, baseMaxSpeed / sqrt size)`
is non-increasing in `size` on sizes >= 1 and never falls below
`minMaxSpeed`. -/
theorem getMaxSpeed_monotone_and_floor (base minMax s1 s2 s : ℝ)
    (hbase : 0 ≤ base) (h1 : 1 ≤ s1) (h12 : s1 ≤ s2) :
    getMaxSpeed s2 base minMax ≤ getMaxSpeed s1 base minMax ∧
    minMax ≤ getMaxSpeed s base minMax := by
  constructor
  · apply max_le_max le_rfl
    have hs1 : 0 < Real.sqrt s1 := Real.sqrt_pos.mpr (by linarith)
    have hmono : Real.sqrt s1 ≤ Real.sqrt s2 := Real.sqrt_le_sqrt h12
    exact div_le_div_of_nonneg_left hbase hs1 hmono
  · exact le_max_left _ _

/-- Witness for C8 at base 200, floor 50, sizes 1 and 4. -/
theorem getMaxSpeed_monotone_and_floor_witness :
    (0:ℝ) ≤ 200 ∧
    (getMaxSpeed (4:ℝ) 200 50 ≤ getMaxSpeed 1 200 50 ∧ (50:ℝ) ≤ getMaxSpeed 9 200 50) :=
  ⟨by norm_num,
   getMaxSpeed_monotone_and_floor 200 50 1 4 9 (by norm_num) (by norm_num) (by norm_num)⟩

/-! ### C2: spawn validation -/

/-- Membership in the loop index set. -/
theorem mem_intRange {a b x : ℤ} : x ∈ intRange a b ↔ a ≤ x ∧ x ≤ b := by
  unfold intRange
  constructor
  · intro hx
    obtain ⟨i, hi, rfl⟩ := List.mem_map.mp hx
    have := List.mem_range.mp hi
    omega
  · intro hx
    refine List.mem_map.mpr ⟨(x - a).toNat, List.mem_range.mpr ?_, ?_⟩
    · omega
    · omega

/-- A cell that blocks spawning: it carries the filled or the border
flag. -/
def BlockedCell (g : SpatialGrid) (x y l : ℤ) : Prop :=
  hasCellFlag (g.getCell x y l) CELL_FILLED = true ∨
  hasCellFlag (g.getCell x y l) CELL_BORDER = true

instance (g : SpatialGrid) (x y l : ℤ) : Decidable (BlockedCell g x y l) := by
  unfold BlockedCell; infer_instance

/-- For sizes above 1, `canSpawn` is true exactly when no cell of the
discretized sphere of radius `size - 1` is blocked. -/
theorem canSpawn_true_iff (pxX pxY z : ℚ) (size : ℕ) (g : SpatialGrid) (vpc : ViewportCells)
    (cX cY cL : ℤ)
    (hcx : cX = jsTrunc (pxX * vpc.invCellSizeXPx) + vpc.startCellX)
    (hcy : cY = jsTrunc (pxY * vpc.invCellSizeYPx) + vpc.startCellY)
    (hcl : cL = jsRound z)
    (hsize : 1 < size) :
    canSpawn pxX pxY z size g vpc = true ↔
      ∀ dx dy dz : ℤ, dx ^ 2 + dy ^ 2 + dz ^ 2 ≤ ((size : ℤ) - 1) ^ 2 →
        ¬ BlockedCell g (cX + dx) (cY + dy) (cL + dz) := by
  subst hcx hcy hcl
  have hne : ¬ size = 1 := by omega
  rw [canSpawn]
  simp only [if_neg hne, List.all_eq_true]
  constructor
  · intro H dx dy dz hs hb
    have hr : (1 : ℤ) ≤ (size : ℤ) - 1 := by
      have : (2 : ℤ) ≤ (size : ℤ) := by exact_mod_cast hsize
      omega
    have hdx : -((size : ℤ) - 1) ≤ dx ∧ dx ≤ (size : ℤ) - 1 := by
      constructor <;> nlinarith [sq_nonneg dy, sq_nonneg dz, sq_nonneg (dx + ((size : ℤ) - 1)),
        sq_nonneg (dx - ((size : ℤ) - 1))]
    have hdy : -((size : ℤ) - 1) ≤ dy ∧ dy ≤ (size : ℤ) - 1 := by
      constructor <;> nlinarith [sq_nonneg dx, sq_nonneg dz, sq_nonneg (dy + ((size : ℤ) - 1)),
        sq_nonneg (dy - ((size : ℤ) - 1))]
    have hdz : -((size : ℤ) - 1) ≤ dz ∧ dz ≤ (size : ℤ) - 1 := by
      constructor <;> nlinarith [sq_nonneg dx, sq_nonneg dy, sq_nonneg (dz + ((size : ℤ) - 1)),
        sq_nonneg (dz - ((size : ℤ) - 1))]
    have h1 := H dz (mem_intRange.mpr ⟨hdz.1, hdz.2⟩) dy (mem_intRange.mpr ⟨hdy.1, hdy.2⟩)
      dx (mem_intRange.mpr ⟨hdx.1, hdx.2⟩)
    rw [if_pos (by nlinarith)] at h1
    rcases hb with hb | hb <;> simp [hb] at h1
  · intro H dz _ dy _ dx _
    split
    case isTrue hs =>
      have := H dx dy dz (by nlinarith)
      rw [BlockedCell] at this
      push_neg at this
      simp [this.1, this.2]
    case isFalse => rfl

/-- C2: `canSpawn` returns false for a size-1 orb exactly when the single
target cell carries the filled or border flag (so the proximity flag
alone never blocks it), and for every size > 1 exactly when some offset
(dx,dy,dz) with dx²+dy²+dz² ≤ (size−1)² around the center cell yields a
cell carrying the filled or border flag; in all other cases it returns
true. -/
theorem canSpawn_blocked_characterization (pxX pxY z : ℚ) (size : ℕ)
    (g : SpatialGrid) (vpc : ViewportCells) (cX cY cL : ℤ)
    (hcx : cX = jsTrunc (pxX * vpc.invCellSizeXPx) + vpc.startCellX)
    (hcy : cY = jsTrunc (pxY * vpc.invCellSizeYPx) + vpc.startCellY)
    (hcl : cL = jsRound z) :
    (size = 1 → (canSpawn pxX pxY z size g vpc = false ↔ BlockedCell g cX cY cL)) ∧
    (1 < size → (canSpawn pxX pxY z size g vpc = false ↔
      ∃ dx dy dz : ℤ, dx ^ 2 + dy ^ 2 + dz ^ 2 ≤ ((size : ℤ) - 1) ^ 2 ∧
        BlockedCell g (cX + dx) (cY + dy) (cL + dz))) := by
  constructor
  · intro h1
    subst hcx hcy hcl
    rw [canSpawn]
    simp only [h1, if_pos]
    rw [BlockedCell]
    cases hf : hasCellFlag (g.getCell (jsTrunc (pxX * vpc.invCellSizeXPx) + vpc.startCellX)
        (jsTrunc (pxY * vpc.invCellSizeYPx) + vpc.startCellY) (jsRound z)) CELL_FILLED <;>
      cases hb : hasCellFlag (g.getCell (jsTrunc (pxX * vpc.invCellSizeXPx) + vpc.startCellX)
        (jsTrunc (pxY * vpc.invCellSizeYPx) + vpc.startCellY) (jsRound z)) CELL_BORDER <;>
      simp [hf, hb]
  · intro h2
    have hiff := canSpawn_true_iff pxX pxY z size g vpc cX cY cL hcx hcy hcl h2
    constructor
    · intro hf
      by_contra hno
      push_neg at hno
      have : canSpawn pxX pxY z size g vpc = true :=
        hiff.mpr fun dx dy dz hs hb => hno dx dy dz hs hb
      rw [this] at hf
      exact Bool.noConfusion hf
    · rintro ⟨dx, dy, dz, hs, hb⟩
      cases hE : canSpawn pxX pxY z size g vpc
      · rfl
      · exact absurd hb (hiff.mp hE dx dy dz hs)

/-- Concrete 5x5x1 grid with a single filled cell at (3,2,0), used by the
C2 and C5 witnesses' scenarios (for C5 the cell holds the border flag
instead). -/
def gridWithFilled : SpatialGrid :=
  SpatialGrid.mk ⟨5, 5, 1⟩ ((List.replicate 25 0).set 13 CELL_FILLED)

/-- Unit viewport mapping: one pixel per cell, viewport at the grid
origin. -/
def vpcUnit : ViewportCells := ViewportCells.mk 0 0 1 1

/-- Witness for C2: a size-2 orb centered on cell (2,2,0) of
`gridWithFilled` is blocked (the filled cell (3,2,0) is at offset
(1,0,0), inside the radius-1 sphere), exercised through the theorem's
size>1 direction. -/
theorem canSpawn_blocked_characterization_witness :
    canSpawn (5/2) (5/2) 0 2 gridWithFilled vpcUnit = false :=
  ((canSpawn_blocked_characterization (5/2) (5/2) 0 2 gridWithFilled vpcUnit
      2 2 0 (by norm_num [jsTrunc, vpcUnit]) (by norm_num [jsTrunc, vpcUnit])
      (by norm_num [jsRound])).2 (by norm_num)).mpr
    ⟨1, 0, 0, by decide, by decide⟩

/-! ### C5: axis-independent wall collision -/

/-- Concrete 5x5x1 grid whose only wall cell is (3,2,0): a border one
cell to the right of the center cell (2,2,0). -/
def gridWithBorder : SpatialGrid :=
  SpatialGrid.mk ⟨5, 5, 1⟩ ((List.replicate 25 0).set 13 CELL_BORDER)

/-- A size-1 orb in the middle of cell (2,2,0) with rightward-dominant
velocity (vx = 10, vy = 1, vz = 0). -/
def orbRight : OrbQ := OrbQ.mk (5/2) (5/2) 0 10 1 0 1

/-- C5: for a size-1 orb `checkMove` tests the X, Y and Z axes separately
and sets each reflect flag exactly when that axis's probe cell is a
wall; in the concrete scenario (size-1 orb in cell (2,2) with a wall one
cell to its right and rightward-dominant velocity) one phase-6 tick
reports reflectX = true, reflectY = false, and afterwards vx has flipped
sign while vy is unchanged. -/
theorem wall_collision_axis_independent (orb : OrbQ) (dt : ℚ) (g : SpatialGrid)
    (vpc : ViewportCells) (b1 b2 b3 : Bool)
    (hsize : orb.size = 1)
    (h1 : b1 = g.isWall (jsTrunc ((orb.pxX + orb.vx * dt) * vpc.invCellSizeXPx) + vpc.startCellX)
        (jsTrunc (orb.pxY * vpc.invCellSizeYPx) + vpc.startCellY) (jsRound orb.z))
    (h2 : b2 = g.isWall (jsTrunc (orb.pxX * vpc.invCellSizeXPx) + vpc.startCellX)
        (jsTrunc ((orb.pxY + orb.vy * dt) * vpc.invCellSizeYPx) + vpc.startCellY) (jsRound orb.z))
    (h3 : b3 = g.isWall (jsTrunc (orb.pxX * vpc.invCellSizeXPx) + vpc.startCellX)
        (jsTrunc (orb.pxY * vpc.invCellSizeYPx) + vpc.startCellY) (jsRound (orb.z + orb.vz * dt))) :
    checkMove orb dt g vpc = CollisionResult.mk (b1 || b2 || b3) b1 b2 b3 ∧
    (phase6Tick orbRight (1/10) gridWithBorder vpcUnit).2.reflectX = true ∧
    (phase6Tick orbRight (1/10) gridWithBorder vpcUnit).2.reflectY = false ∧
    (phase6Tick orbRight (1/10) gridWithBorder vpcUnit).1.vx = -orbRight.vx ∧
    (phase6Tick orbRight (1/10) gridWithBorder vpcUnit).1.vy = orbRight.vy := by
  have hcheck : checkMove orbRight (1/10) gridWithBorder vpcUnit
      = CollisionResult.mk true true false false := by
    rw [checkMove]
    have e1 : jsTrunc ((orbRight.pxX + orbRight.vx * (1/10)) * vpcUnit.invCellSizeXPx)
        + vpcUnit.startCellX = 3 := by norm_num [orbRight, vpcUnit, jsTrunc]
    have e2 : jsTrunc ((orbRight.pxY + orbRight.vy * (1/10)) * vpcUnit.invCellSizeYPx)
        + vpcUnit.startCellY = 2 := by norm_num [orbRight, vpcUnit, jsTrunc]
    have e3 : jsRound (orbRight.z + orbRight.vz * (1/10)) = 0 := by
      norm_num [orbRight, jsRound]
    have e4 : jsTrunc (orbRight.pxX * vpcUnit.invCellSizeXPx) + vpcUnit.startCellX = 2 := by
      norm_num [orbRight, vpcUnit, jsTrunc]
    have e5 : jsTrunc (orbRight.pxY * vpcUnit.invCellSizeYPx) + vpcUnit.startCellY = 2 := by
      norm_num [orbRight, vpcUnit, jsTrunc]
    have e6 : jsRound orbRight.z = 0 := by norm_num [orbRight, jsRound]
    rw [if_pos (show orbRight.size = 1 from rfl)]
    rw [e1, e2, e3, e4, e5, e6]
    have w1 : gridWithBorder.isWall 3 2 0 = true := by decide
    have w2 : gridWithBorder.isWall 2 2 0 = false := by decide
    rw [w1, w2]
    rfl
  refine ⟨?_, ?_, ?_, ?_, ?_⟩
  · subst h1 h2 h3
    rw [checkMove, if_pos hsize]
  · rw [phase6Tick, hcheck]
  · rw [phase6Tick, hcheck]
  · rw [phase6Tick, hcheck]
    norm_num [applyReflection, updatePositionQ, orbRight]
  · rw [phase6Tick, hcheck]
    norm_num [applyReflection, updatePositionQ, orbRight]

/-- Witness for C5: the general axis-independence equality applied to the
concrete scenario itself. -/
theorem wall_collision_axis_independent_witness :
    checkMove orbRight (1/10) gridWithBorder vpcUnit =
      CollisionResult.mk
        (gridWithBorder.isWall 3 2 0 || gridWithBorder.isWall 2 2 0 || gridWithBorder.isWall 2 2 0)
        (gridWithBorder.isWall 3 2 0) (gridWithBorder.isWall 2 2 0) (gridWithBorder.isWall 2 2 0) :=
  (wall_collision_axis_independent orbRight (1/10) gridWithBorder vpcUnit
    (gridWithBorder.isWall 3 2 0) (gridWithBorder.isWall 2 2 0) (gridWithBorder.isWall 2 2 0)
    rfl
    (by norm_num [orbRight, vpcUnit, jsTrunc, jsRound])
    (by norm_num [orbRight, vpcUnit, jsTrunc, jsRound])
    (by norm_num [orbRight, vpcUnit, jsTrunc, jsRound])).1

/-! ### C10: speed limiting never accelerates -/

/-- Scaling all velocity components by a nonnegative factor scales the
combined 3D speed by that factor. -/
theorem currentSpeed3D_scale (orb : OrbR) (c : ℝ) (hc : 0 ≤ c) (sp : ℝ) :
    currentSpeed3D (OrbR.mk (orb.vx * c) (orb.vy * c) (orb.vz * c) sp orb.size)
      = c * currentSpeed3D orb := by
  rw [currentSpeed3D, currentSpeed3D]
  have hsq : orb.vx * c * (orb.vx * c) + orb.vy * c * (orb.vy * c)
      + orb.vz * c * 20 * (orb.vz * c * 20)
      = c ^ 2 * (orb.vx * orb.vx + orb.vy * orb.vy + (orb.vz * 20) * (orb.vz * 20)) := by
    ring
  simp only []
  rw [show (orb.vz * c * 20) * (orb.vz * c * 20)
      = c ^ 2 * ((orb.vz * 20) * (orb.vz * 20)) - c ^ 2 * 0 by ring]
  rw [show orb.vx * c * (orb.vx * c) + orb.vy * c * (orb.vy * c)
      + (c ^ 2 * ((orb.vz * 20) * (orb.vz * 20)) - c ^ 2 * 0)
      = c ^ 2 * (orb.vx * orb.vx + orb.vy * orb.vy + (orb.vz * 20) * (orb.vz * 20)) by ring]
  rw [Real.sqrt_mul (sq_nonneg _), Real.sqrt_sq hc]

/-- C10: `applySpeedLimit` never increases the combined 3D speed: below
the 0.001 degenerate threshold or at/below the size-derived cap the orb
is unchanged, and above the cap (with `decelerationRate` in (0,1),
`deltaTime > 0` and a positive `minMaxSpeed` floor) the velocity is
rescaled by a factor strictly between 0 and 1 - so no component's
direction reverses - and the new combined speed lies strictly between
the cap and the old speed (deceleration that never undershoots the
cap). -/
theorem applySpeedLimit_never_accelerates (orb : OrbR) (base minMax rate dt : ℝ)
    (hr0 : 0 < rate) (hr1 : rate < 1) (hdt : 0 < dt) (hmm : 0 < minMax) :
    (currentSpeed3D orb < 0.001 → applySpeedLimit orb base minMax rate dt = orb) ∧
    (currentSpeed3D orb ≤ getMaxSpeed orb.size base minMax →
      applySpeedLimit orb base minMax rate dt = orb) ∧
    (0.001 ≤ currentSpeed3D orb → getMaxSpeed orb.size base minMax < currentSpeed3D orb →
      ∃ scale : ℝ, 0 < scale ∧ scale < 1 ∧
        (applySpeedLimit orb base minMax rate dt).vx = orb.vx * scale ∧
        (applySpeedLimit orb base minMax rate dt).vy = orb.vy * scale ∧
        (applySpeedLimit orb base minMax rate dt).vz = orb.vz * scale ∧
        getMaxSpeed orb.size base minMax
          < currentSpeed3D (applySpeedLimit orb base minMax rate dt) ∧
        currentSpeed3D (applySpeedLimit orb base minMax rate dt) < currentSpeed3D orb) := by
  refine ⟨?_, ?_, ?_⟩
  · intro hlt
    rw [applySpeedLimit, if_pos (show Real.sqrt _ < 0.001 from hlt)]
  · intro hle
    rw [applySpeedLimit]
    split
    case isTrue => rfl
    case isFalse h =>
      rw [if_neg (show ¬ getMaxSpeed orb.size base minMax < Real.sqrt _ from not_lt.mpr hle)]
  · intro hth hcap
    have hcap0 : 0 < getMaxSpeed orb.size base minMax := lt_of_lt_of_le hmm (le_max_left _ _)
    have hcs0 : 0 < currentSpeed3D orb := lt_trans hcap0 hcap
    have hpow0 : (0:ℝ) < (1 - rate) ^ (dt * 60) := Real.rpow_pos_of_pos (by linarith) _
    have hpow1 : (1 - rate) ^ (dt * 60) < 1 :=
      Real.rpow_lt_one (by linarith) (by linarith) (by positivity)
    have hns1 : getMaxSpeed orb.size base minMax <
        currentSpeed3D orb + (getMaxSpeed orb.size base minMax - currentSpeed3D orb)
          * (1 - (1 - rate) ^ (dt * 60)) := by nlinarith
    have hns2 : currentSpeed3D orb + (getMaxSpeed orb.size base minMax - currentSpeed3D orb)
        * (1 - (1 - rate) ^ (dt * 60)) < currentSpeed3D orb := by nlinarith
    have hns0 : 0 < currentSpeed3D orb + (getMaxSpeed orb.size base minMax - currentSpeed3D orb)
        * (1 - (1 - rate) ^ (dt * 60)) := lt_trans hcap0 hns1
    have hscale0 : 0 < (currentSpeed3D orb + (getMaxSpeed orb.size base minMax - currentSpeed3D orb)
        * (1 - (1 - rate) ^ (dt * 60))) / currentSpeed3D orb := div_pos hns0 hcs0
    have happ : applySpeedLimit orb base minMax rate dt =
        OrbR.mk
          (orb.vx * ((currentSpeed3D orb + (getMaxSpeed orb.size base minMax - currentSpeed3D orb)
            * (1 - (1 - rate) ^ (dt * 60))) / currentSpeed3D orb))
          (orb.vy * ((currentSpeed3D orb + (getMaxSpeed orb.size base minMax - currentSpeed3D orb)
            * (1 - (1 - rate) ^ (dt * 60))) / currentSpeed3D orb))
          (orb.vz * ((currentSpeed3D orb + (getMaxSpeed orb.size base minMax - currentSpeed3D orb)
            * (1 - (1 - rate) ^ (dt * 60))) / currentSpeed3D orb))
          (Real.sqrt
            (orb.vx * ((currentSpeed3D orb + (getMaxSpeed orb.size base minMax - currentSpeed3D orb)
              * (1 - (1 - rate) ^ (dt * 60))) / currentSpeed3D orb)
              * (orb.vx * ((currentSpeed3D orb + (getMaxSpeed orb.size base minMax - currentSpeed3D orb)
              * (1 - (1 - rate) ^ (dt * 60))) / currentSpeed3D orb))
            + orb.vy * ((currentSpeed3D orb + (getMaxSpeed orb.size base minMax - currentSpeed3D orb)
              * (1 - (1 - rate) ^ (dt * 60))) / currentSpeed3D orb)
              * (orb.vy * ((currentSpeed3D orb + (getMaxSpeed orb.size base minMax - currentSpeed3D orb)
              * (1 - (1 - rate) ^ (dt * 60))) / currentSpeed3D orb))))
          orb.size := by
      rw [applySpeedLimit, if_neg (show ¬ Real.sqrt _ < 0.001 from not_lt.mpr hth),
        if_pos (show getMaxSpeed orb.size base minMax < Real.sqrt _ from hcap)]
      rfl
    refine ⟨_, hscale0, (div_lt_one hcs0).mpr hns2, ?_, ?_, ?_, ?_, ?_⟩
    · rw [happ]
    · rw [happ]
    · rw [happ]
    · rw [happ, currentSpeed3D_scale orb _ (le_of_lt hscale0),
        div_mul_cancel₀ _ (ne_of_gt hcs0)]
      exact hns1
    · rw [happ, currentSpeed3D_scale orb _ (le_of_lt hscale0),
        div_mul_cancel₀ _ (ne_of_gt hcs0)]
      exact hns2

/-- Witness for C10: a size-1 orb with velocity (3,4,0) (combined speed
5) limited with base cap 2, floor 1, rate 1/2 and dt 1/60. -/
theorem applySpeedLimit_never_accelerates_witness :
    (0.001 : ℝ) ≤ currentSpeed3D (OrbR.mk 3 4 0 5 1) ∧
    getMaxSpeed (OrbR.mk 3 4 0 5 1).size 2 1 < currentSpeed3D (OrbR.mk 3 4 0 5 1) ∧
    (∃ scale : ℝ, 0 < scale ∧ scale < 1 ∧
      (applySpeedLimit (OrbR.mk 3 4 0 5 1) 2 1 (1/2) (1/60)).vx
        = (OrbR.mk 3 4 0 5 1).vx * scale ∧
      (applySpeedLimit (OrbR.mk 3 4 0 5 1) 2 1 (1/2) (1/60)).vy
        = (OrbR.mk 3 4 0 5 1).vy * scale ∧
      (applySpeedLimit (OrbR.mk 3 4 0 5 1) 2 1 (1/2) (1/60)).vz
        = (OrbR.mk 3 4 0 5 1).vz * scale ∧
      getMaxSpeed (OrbR.mk 3 4 0 5 1).size 2 1
        < currentSpeed3D (applySpeedLimit (OrbR.mk 3 4 0 5 1) 2 1 (1/2) (1/60)) ∧
      currentSpeed3D (applySpeedLimit (OrbR.mk 3 4 0 5 1) 2 1 (1/2) (1/60))
        < currentSpeed3D (OrbR.mk 3 4 0 5 1)) := by
  have hc : currentSpeed3D (OrbR.mk 3 4 0 5 1) = 5 := by
    rw [currentSpeed3D]
    norm_num
    rw [show (25:ℝ) = 5 ^ 2 by norm_num]
    exact Real.sqrt_sq (by norm_num)
  have hg : getMaxSpeed (OrbR.mk 3 4 0 5 1).size 2 1 = 2 := by
    rw [getMaxSpeed]
    norm_num [Real.sqrt_one]
  refine ⟨by rw [hc]; norm_num, by rw [hg, hc]; norm_num, ?_⟩
  exact (applySpeedLimit_never_accelerates (OrbR.mk 3 4 0 5 1) 2 1 (1/2) (1/60)
    (by norm_num) (by norm_num) (by norm_num) (by norm_num)).2.2
    (by rw [hc]; norm_num) (by rw [hg, hc]; norm_num)

/-! ### JsQ facts for the collision theorems -/

theorem jsMul_isSome_iff {x y : JsQ} : (jsMul x y).isSome ↔ x.isSome ∧ y.isSome := by
  cases x <;> cases y <;> simp [jsMul]

theorem jsAdd_isSome_iff {x y : JsQ} : (jsAdd x y).isSome ↔ x.isSome ∧ y.isSome := by
  cases x <;> cases y <;> simp [jsAdd]

theorem jsSub_isSome_iff {x y : JsQ} : (jsSub x y).isSome ↔ x.isSome ∧ y.isSome := by
  cases x <;> cases y <;> simp [jsSub]

/-- Position correction never touches velocities or sizes. -/
theorem positionCorrection_velocities (oA oB : OrbJs) (nx ny nz overlap orat : JsQ)
    (ma mb tot : ℚ) (vpc : ViewportCells) :
    (positionCorrection oA oB nx ny nz overlap orat ma mb tot vpc).1.vx = oA.vx ∧
    (positionCorrection oA oB nx ny nz overlap orat ma mb tot vpc).1.vy = oA.vy ∧
    (positionCorrection oA oB nx ny nz overlap orat ma mb tot vpc).1.vz = oA.vz ∧
    (positionCorrection oA oB nx ny nz overlap orat ma mb tot vpc).1.size = oA.size ∧
    (positionCorrection oA oB nx ny nz overlap orat ma mb tot vpc).2.vx = oB.vx ∧
    (positionCorrection oA oB nx ny nz overlap orat ma mb tot vpc).2.vy = oB.vy ∧
    (positionCorrection oA oB nx ny nz overlap orat ma mb tot vpc).2.vz = oB.vz ∧
    (positionCorrection oA oB nx ny nz overlap orat ma mb tot vpc).2.size = oB.size := by
  rw [positionCorrection]
  dsimp only
  split_ifs <;> refine ⟨rfl, rfl, rfl, rfl, rfl, rfl, rfl, rfl⟩

/-- One momentum component across an impulse exchange: orb A loses `u`,
orb B gains `v`; if `ma * u = mb * v` the size-weighted sum is unchanged
(and a non-finite velocity keeps both sides non-finite). -/
theorem momentum_component (va vb : JsQ) (ma mb u v : ℚ) (h : ma * u = mb * v) :
    jsAdd (jsMul (some ma) (jsSub va (some u))) (jsMul (some mb) (jsAdd vb (some v)))
      = jsAdd (jsMul (some ma) va) (jsMul (some mb) vb) := by
  cases va <;> cases vb <;> simp [jsAdd, jsMul, jsSub]
  linear_combination -h

/-- Both velocity-resolution branches conserve the mass-weighted momentum
in every component, for any finite collision normal. -/
theorem velocityResolution_momentum (a b : OrbJs) (nxv nyv nzv : ℚ) (orat : JsQ)
    (ma mb tot : ℚ) :
    (jsAdd (jsMul (some ma) (velocityResolution a b (some nxv) (some nyv) (some nzv) orat ma mb tot).1.vx)
      (jsMul (some mb) (velocityResolution a b (some nxv) (some nyv) (some nzv) orat ma mb tot).2.vx)
      = jsAdd (jsMul (some ma) a.vx) (jsMul (some mb) b.vx)) ∧
    (jsAdd (jsMul (some ma) (velocityResolution a b (some nxv) (some nyv) (some nzv) orat ma mb tot).1.vy)
      (jsMul (some mb) (velocityResolution a b (some nxv) (some nyv) (some nzv) orat ma mb tot).2.vy)
      = jsAdd (jsMul (some ma) a.vy) (jsMul (some mb) b.vy)) ∧
    (jsAdd (jsMul (some ma) (velocityResolution a b (some nxv) (some nyv) (some nzv) orat ma mb tot).1.vz)
      (jsMul (some mb) (velocityResolution a b (some nxv) (some nyv) (some nzv) orat ma mb tot).2.vz)
      = jsAdd (jsMul (some ma) a.vz) (jsMul (some mb) b.vz)) := by
  rw [velocityResolution]
  dsimp only
  split
  case isTrue h1 =>
    split
    case isTrue h2 =>
      -- elastic commit: the guard forces a nonzero total mass and a
      -- finite relative normal speed
      rw [Bool.and_eq_true] at h2
      have htot : ¬ tot = 0 := by
        intro h0
        have := h2.1
        rw [JsQ.isFinite, jsMul_isSome_iff] at this
        have h' := this.1
        simp [jsDiv, h0] at h'
      have hd : ∃ d, jsAdd (jsAdd (jsMul (jsSub a.vx b.vx) (some nxv))
          (jsMul (jsSub a.vy b.vy) (some nyv))) (jsMul (jsSub a.vz b.vz) (some nzv)) = some d := by
        have := h2.1
        rw [JsQ.isFinite, jsMul_isSome_iff] at this
        exact Option.isSome_iff_exists.mp this.2
      obtain ⟨d, hd⟩ := hd
      rw [hd]
      simp only [jsDiv, if_neg htot, jsMul]
      refine ⟨?_, ?_, ?_⟩ <;> exact momentum_component _ _ ma mb _ _ (by ring)
    case isFalse => exact ⟨rfl, rfl, rfl⟩
  case isFalse h1 =>
    split
    case isTrue h3 =>
      split
      case isTrue h4 =>
        -- unstick commit: the guard forces a nonzero total mass and a
        -- finite overlap ratio
        rw [Bool.and_eq_true] at h4
        have htot : ¬ tot = 0 := by
          intro h0
          have := h4.1
          rw [JsQ.isFinite, jsMul_isSome_iff] at this
          have h' := this.2
          simp [jsDiv, h0] at h'
        have ho : ∃ ov, orat = some ov := by
          have := h4.1
          rw [JsQ.isFinite, jsMul_isSome_iff, jsMul_isSome_iff] at this
          exact Option.isSome_iff_exists.mp this.1.2
        obtain ⟨ov, ho⟩ := ho
        rw [ho]
        simp only [jsDiv, if_neg htot, jsMul]
        refine ⟨?_, ?_, ?_⟩ <;> exact momentum_component _ _ ma mb _ _ (by ring)
      case isFalse => exact ⟨rfl, rfl, rfl⟩
    case isFalse => exact ⟨rfl, rfl, rfl⟩

theorem jsLt_true_isSome_left {x y : JsQ} (h : jsLt x y = true) : x.isSome := by
  cases x
  · cases y <;> simp [jsLt] at h
  · rfl

/-- Momentum conservation for the position-correction + velocity-
resolution composition, given a finite collision normal. -/
theorem resolvePair_momentum_core (A B : OrbJs) (vpc : ViewportCells)
    (nx ny nz overlap orat : JsQ) (nxv nyv nzv : ℚ)
    (hnx : nx = some nxv) (hny : ny = some nyv) (hnz : nz = some nzv) :
    (jsAdd (jsMul (some A.size) (velocityResolution
        (positionCorrection A B nx ny nz overlap orat A.size B.size (A.size + B.size) vpc).1
        (positionCorrection A B nx ny nz overlap orat A.size B.size (A.size + B.size) vpc).2
        nx ny nz orat A.size B.size (A.size + B.size)).1.vx)
      (jsMul (some B.size) (velocityResolution
        (positionCorrection A B nx ny nz overlap orat A.size B.size (A.size + B.size) vpc).1
        (positionCorrection A B nx ny nz overlap orat A.size B.size (A.size + B.size) vpc).2
        nx ny nz orat A.size B.size (A.size + B.size)).2.vx)
      = jsAdd (jsMul (some A.size) A.vx) (jsMul (some B.size) B.vx)) ∧
    (jsAdd (jsMul (some A.size) (velocityResolution
        (positionCorrection A B nx ny nz overlap orat A.size B.size (A.size + B.size) vpc).1
        (positionCorrection A B nx ny nz overlap orat A.size B.size (A.size + B.size) vpc).2
        nx ny nz orat A.size B.size (A.size + B.size)).1.vy)
      (jsMul (some B.size) (velocityResolution
        (positionCorrection A B nx ny nz overlap orat A.size B.size (A.size + B.size) vpc).1
        (positionCorrection A B nx ny nz overlap orat A.size B.size (A.size + B.size) vpc).2
        nx ny nz orat A.size B.size (A.size + B.size)).2.vy)
      = jsAdd (jsMul (some A.size) A.vy) (jsMul (some B.size) B.vy)) ∧
    (jsAdd (jsMul (some A.size) (velocityResolution
        (positionCorrection A B nx ny nz overlap orat A.size B.size (A.size + B.size) vpc).1
        (positionCorrection A B nx ny nz overlap orat A.size B.size (A.size + B.size) vpc).2
        nx ny nz orat A.size B.size (A.size + B.size)).1.vz)
      (jsMul (some B.size) (velocityResolution
        (positionCorrection A B nx ny nz overlap orat A.size B.size (A.size + B.size) vpc).1
        (positionCorrection A B nx ny nz overlap orat A.size B.size (A.size + B.size) vpc).2
        nx ny nz orat A.size B.size (A.size + B.size)).2.vz)
      = jsAdd (jsMul (some A.size) A.vz) (jsMul (some B.size) B.vz)) := by
  subst hnx hny hnz
  have pcv := positionCorrection_velocities A B (some nxv) (some nyv) (some nzv)
    overlap orat A.size B.size (A.size + B.size) vpc
  have vrm := velocityResolution_momentum
    (positionCorrection A B (some nxv) (some nyv) (some nzv)
      overlap orat A.size B.size (A.size + B.size) vpc).1
    (positionCorrection A B (some nxv) (some nyv) (some nzv)
      overlap orat A.size B.size (A.size + B.size) vpc).2
    nxv nyv nzv orat A.size B.size (A.size + B.size)
  rw [pcv.1, pcv.2.1, pcv.2.2.1, pcv.2.2.2.2.1, pcv.2.2.2.2.2.1, pcv.2.2.2.2.2.2.1] at vrm
  exact vrm

/-- C9 (implicit): both velocity-update branches of
`OrbOrbCollision.resolveCollisions` conserve size-weighted momentum -
for every pair, the impulse application (elastic branch and
minimum-separation branch, including the symmetric 0.05 Z scaling)
leaves `sizeA*vA + sizeB*vB` unchanged in each of the x, y and z
components, because each orb's impulse is weighted by the other orb's
mass fraction; only the separate position correction moves the pair
apart. The hypothesis `0 < distR` records that the supplied
`Math.sqrt(distSq)` value is positive, which holds in every run of the
source because the non-degenerate branch has `distSq >= 0.001`. -/
theorem collision_conserves_momentum (A B : OrbJs) (vpc : ViewportCells)
    (distR rnx rny rnz : ℚ) (hdist : 0 < distR) :
    (jsAdd (jsMul (some A.size) (resolveCollisionPair A B vpc distR rnx rny rnz).1.vx)
      (jsMul (some B.size) (resolveCollisionPair A B vpc distR rnx rny rnz).2.vx)
      = jsAdd (jsMul (some A.size) A.vx) (jsMul (some B.size) B.vx)) ∧
    (jsAdd (jsMul (some A.size) (resolveCollisionPair A B vpc distR rnx rny rnz).1.vy)
      (jsMul (some B.size) (resolveCollisionPair A B vpc distR rnx rny rnz).2.vy)
      = jsAdd (jsMul (some A.size) A.vy) (jsMul (some B.size) B.vy)) ∧
    (jsAdd (jsMul (some A.size) (resolveCollisionPair A B vpc distR rnx rny rnz).1.vz)
      (jsMul (some B.size) (resolveCollisionPair A B vpc distR rnx rny rnz).2.vz)
      = jsAdd (jsMul (some A.size) A.vz) (jsMul (some B.size) B.vz)) := by
  rw [resolveCollisionPair]
  dsimp only
  split
  case isFalse => exact ⟨rfl, rfl, rfl⟩
  case isTrue hcol =>
    split
    case isTrue hdeg =>
      exact resolvePair_momentum_core A B vpc _ _ _ _ _ rnx rny rnz rfl rfl rfl
    case isFalse hdeg =>
      have hS := jsLt_true_isSome_left hcol
      simp only [jsAdd_isSome_iff, jsMul_isSome_iff] at hS
      obtain ⟨⟨⟨hdx, -⟩, ⟨hdy, -⟩⟩, ⟨hdz, -⟩⟩ := hS
      obtain ⟨dxv, hdx⟩ := Option.isSome_iff_exists.mp hdx
      obtain ⟨dyv, hdy⟩ := Option.isSome_iff_exists.mp hdy
      obtain ⟨dzv, hdz⟩ := Option.isSome_iff_exists.mp hdz
      rw [hdx, hdy, hdz]
      have hs0 : ¬ (dxv * dxv + dyv * dyv + dzv * dzv < 0) :=
        not_lt.mpr (by nlinarith [mul_self_nonneg dxv, mul_self_nonneg dyv, mul_self_nonneg dzv])
      simp only [jsMul, jsAdd, jsSqrtP, if_neg hs0, jsDiv, if_neg hdist.ne']
      exact resolvePair_momentum_core A B vpc _ _ _ _ _ _ _ _ rfl rfl rfl

/-! ### C1: restitution behaviour of the elastic branch -/

/-- Size-2 orb at the origin moving right at 10 px/s. -/
def orbA0 : OrbJs := OrbJs.mk (some 0) (some 0) (some 0) (some 10) (some 0) (some 0) 2

/-- Size-2 orb one cell to the right, moving left at 10 px/s: a head-on
equal-mass approaching pair (center distance 1 < minDist 3, relative
approach speed 20 along the +x normal). -/
def orbB0 : OrbJs := OrbJs.mk (some 1) (some 0) (some 0) (some (-10)) (some 0) (some 0) 2

/-- Counterexample to C1 as stated: for the head-on equal-mass approaching
pair above (collision normal (1,0,0), old relative normal velocity 20,
`Math.sqrt(distSq) = 1` supplied exactly), the post-collision relative
normal velocity is `+4 = (1 - 0.8) * 20` - it does NOT reverse sign, and
`4 ≠ -0.8 * 20 = -16`, refuting "the new relative normal velocity equals
-0.8 times the old one". -/
theorem collision_restitution_counterexample :
    jsSub (resolveCollisionPair orbA0 orbB0 vpcUnit 1 0 0 0).1.vx
        (resolveCollisionPair orbA0 orbB0 vpcUnit 1 0 0 0).2.vx = some 4 ∧
    jsSub orbA0.vx orbB0.vx = some 20 ∧
    ¬ ((4 : ℚ) = -(4/5) * 20) := by
  refine ⟨?_, by simp [orbA0, orbB0, jsSub]; norm_num, by norm_num⟩
  norm_num [resolveCollisionPair, positionCorrection, velocityResolution, orbA0, orbB0,
    vpcUnit, jsMul, jsSub, jsAdd, jsDiv, jsLt, jsSqrtP, JsQ.isFinite]

/-- C1 amended: in the elastic branch (approaching pair, finite
velocities, unit collision normal, masses `ma`, `mb` with total
`tot = ma + mb` as the source passes them), the post-collision relative
normal velocity equals `(1 - 0.8) = +0.2` times the old one: the
approach is damped by the restitution coefficient but its sign is NOT
reversed (the code's impulse factor is `e*m/(ma+mb)`, not
`(1+e)*m/(ma+mb)`). The second conjunct instantiates this on the
head-on equal-mass pair through the full `resolveCollisionPair`
pipeline: the old relative normal velocity 20 becomes `0.2 * 20 = 4`. -/
theorem collision_restitution_amended (a b : OrbJs) (orat : JsQ)
    (avx avy avz bvx bvy bvz nxv nyv nzv ma mb tot : ℚ)
    (havx : a.vx = some avx) (havy : a.vy = some avy) (havz : a.vz = some avz)
    (hbvx : b.vx = some bvx) (hbvy : b.vy = some bvy) (hbvz : b.vz = some bvz)
    (hunit : nxv * nxv + nyv * nyv + nzv * nzv = 1)
    (htot : tot = ma + mb) (hma : 0 < ma) (hmb : 0 < mb)
    (hd : 0 < (avx - bvx) * nxv + (avy - bvy) * nyv + (avz - bvz) * nzv) :
    (jsAdd (jsAdd
        (jsMul (jsSub (velocityResolution a b (some nxv) (some nyv) (some nzv) orat ma mb tot).1.vx
            (velocityResolution a b (some nxv) (some nyv) (some nzv) orat ma mb tot).2.vx) (some nxv))
        (jsMul (jsSub (velocityResolution a b (some nxv) (some nyv) (some nzv) orat ma mb tot).1.vy
            (velocityResolution a b (some nxv) (some nyv) (some nzv) orat ma mb tot).2.vy) (some nyv)))
      (jsMul (jsSub (velocityResolution a b (some nxv) (some nyv) (some nzv) orat ma mb tot).1.vz
            (velocityResolution a b (some nxv) (some nyv) (some nzv) orat ma mb tot).2.vz) (some nzv))
      = some ((1 - 4/5) * ((avx - bvx) * nxv + (avy - bvy) * nyv + (avz - bvz) * nzv))) ∧
    jsSub (resolveCollisionPair orbA0 orbB0 vpcUnit 1 0 0 0).1.vx
        (resolveCollisionPair orbA0 orbB0 vpcUnit 1 0 0 0).2.vx
      = some ((1 - 4/5) * 20) := by
  constructor
  · have htot0 : tot ≠ 0 := by
      rw [htot]
      exact (by linarith : (0:ℚ) < ma + mb).ne'
    rw [velocityResolution]
    dsimp only
    rw [havx, havy, havz, hbvx, hbvy, hbvz]
    simp only [jsSub, jsMul, jsAdd]
    rw [if_pos (by simp [jsLt, JsQ.isFinite]; exact hd)]
    rw [if_pos (by simp [jsDiv, JsQ.isFinite, if_neg htot0, jsMul])]
    simp only [jsDiv, if_neg htot0, jsMul, jsSub, jsAdd]
    refine congrArg some ?_
    rw [htot]
    have hsum : 4/5 * mb / (ma + mb) + 4/5 * ma / (ma + mb) = 4/5 := by
      field_simp
      ring
    rw [show (1 - 4/5 : ℚ) * ((avx - bvx) * nxv + (avy - bvy) * nyv + (avz - bvz) * nzv)
        = ((avx - bvx) * nxv + (avy - bvy) * nyv + (avz - bvz) * nzv)
          - (4/5 * mb / (ma + mb) + 4/5 * ma / (ma + mb))
            * ((avx - bvx) * nxv + (avy - bvy) * nyv + (avz - bvz) * nzv)
            * (nxv * nxv + nyv * nyv + nzv * nzv) from by rw [hsum, hunit]; ring]
    ring
  · norm_num [resolveCollisionPair, positionCorrection, velocityResolution, orbA0, orbB0,
      vpcUnit, jsMul, jsSub, jsAdd, jsDiv, jsLt, jsSqrtP, JsQ.isFinite]

/-- Witness for the amended C1 theorem on the head-on equal-mass pair
(normal (1,0,0), masses 2 and 2, old relative normal velocity 20). -/
theorem collision_restitution_amended_witness :
    (0:ℚ) < (10 - (-10)) * 1 + (0 - 0) * 0 + (0 - 0) * 0 ∧
    jsAdd (jsAdd
        (jsMul (jsSub (velocityResolution orbA0 orbB0 (some 1) (some 0) (some 0) (some 0) 2 2 4).1.vx
            (velocityResolution orbA0 orbB0 (some 1) (some 0) (some 0) (some 0) 2 2 4).2.vx) (some 1))
        (jsMul (jsSub (velocityResolution orbA0 orbB0 (some 1) (some 0) (some 0) (some 0) 2 2 4).1.vy
            (velocityResolution orbA0 orbB0 (some 1) (some 0) (some 0) (some 0) 2 2 4).2.vy) (some 0)))
      (jsMul (jsSub (velocityResolution orbA0 orbB0 (some 1) (some 0) (some 0) (some 0) 2 2 4).1.vz
            (velocityResolution orbA0 orbB0 (some 1) (some 0) (some 0) (some 0) 2 2 4).2.vz) (some 0))
      = some ((1 - 4/5) * ((10 - (-10)) * 1 + (0 - 0) * 0 + (0 - 0) * 0)) :=
  ⟨by norm_num,
   (collision_restitution_amended orbA0 orbB0 (some 0) 10 0 0 (-10) 0 0 1 0 0 2 2 4
      rfl rfl rfl rfl rfl rfl (by norm_num) (by norm_num) (by norm_num) (by norm_num)
      (by norm_num)).1⟩

/-- Witness for C9 on the head-on equal-mass pair: x-momentum is
conserved through `resolveCollisionPair`. -/
theorem collision_conserves_momentum_witness :
    (0:ℚ) < 1 ∧
    jsAdd (jsMul (some orbA0.size) (resolveCollisionPair orbA0 orbB0 vpcUnit 1 0 0 0).1.vx)
      (jsMul (some orbB0.size) (resolveCollisionPair orbA0 orbB0 vpcUnit 1 0 0 0).2.vx)
      = jsAdd (jsMul (some orbA0.size) orbA0.vx) (jsMul (some orbB0.size) orbB0.vx) :=
  ⟨by norm_num, (collision_conserves_momentum orbA0 orbB0 vpcUnit 1 0 0 0 (by norm_num)).1⟩

/-! ### C6: finiteness preservation -/

theorem updatePosition_finite (o : OrbJs) (dt : JsQ) (h : o.Finite) :
    (updatePositionJs o dt).Finite := by
  obtain ⟨h1, h2, h3, h4, h5, h6⟩ := h
  rw [updatePositionJs]
  split
  · exact ⟨h1, h2, h3, h4, h5, h6⟩
  · refine ⟨?_, ?_, ?_, h4, h5, h6⟩ <;> dsimp only
    · split
      case isTrue hf => exact hf
      case isFalse => exact h1
    · split
      case isTrue hf => exact hf
      case isFalse => exact h2
    · split
      case isTrue hf => exact hf
      case isFalse => exact h3

theorem applyRepulsionStep_finite (o : OrbJs) (mx my : JsQ) (dt distR rad str : ℚ)
    (h : o.Finite) : (applyRepulsionStep o mx my dt distR rad str).Finite := by
  obtain ⟨h1, h2, h3, h4, h5, h6⟩ := h
  rw [applyRepulsionStep]
  dsimp only
  split
  · exact ⟨h1, h2, h3, h4, h5, h6⟩
  · split
    · exact ⟨h1, h2, h3, h4, h5, h6⟩
    · split
      case isTrue hg =>
        rw [Bool.and_eq_true, Bool.and_eq_true] at hg
        obtain ⟨⟨ha, hnx⟩, hny⟩ := hg
        obtain ⟨av, ha⟩ := Option.isSome_iff_exists.mp ha
        obtain ⟨nxv, hnx⟩ := Option.isSome_iff_exists.mp hnx
        obtain ⟨nyv, hny⟩ := Option.isSome_iff_exists.mp hny
        obtain ⟨vxv, h4'⟩ := Option.isSome_iff_exists.mp h4
        obtain ⟨vyv, h5'⟩ := Option.isSome_iff_exists.mp h5
        refine ⟨h1, h2, h3, ?_, ?_, h6⟩ <;> dsimp only
        · rw [ha, hnx, h4']
          simp [jsAdd, jsMul]
        · rw [ha, hny, h5']
          simp [jsAdd, jsMul]
      case isFalse => exact ⟨h1, h2, h3, h4, h5, h6⟩

theorem positionCorrection_finite (oA oB : OrbJs) (nx ny nz overlap orat : JsQ)
    (ma mb tot : ℚ) (vpc : ViewportCells) (hA : oA.Finite) (hB : oB.Finite) :
    (positionCorrection oA oB nx ny nz overlap orat ma mb tot vpc).1.Finite ∧
    (positionCorrection oA oB nx ny nz overlap orat ma mb tot vpc).2.Finite := by
  obtain ⟨a1, a2, a3, a4, a5, a6⟩ := hA
  obtain ⟨b1, b2, b3, b4, b5, b6⟩ := hB
  rw [positionCorrection]
  dsimp only
  split
  case isTrue =>
    split
    case isTrue hg =>
      rw [Bool.and_eq_true, Bool.and_eq_true, Bool.and_eq_true, Bool.and_eq_true] at hg
      obtain ⟨⟨⟨⟨hsA, hsB⟩, hnx⟩, hny⟩, hnz⟩ := hg
      obtain ⟨sav, hsA⟩ := Option.isSome_iff_exists.mp hsA
      obtain ⟨sbv, hsB⟩ := Option.isSome_iff_exists.mp hsB
      obtain ⟨nxv, hnx⟩ := Option.isSome_iff_exists.mp hnx
      obtain ⟨nyv, hny⟩ := Option.isSome_iff_exists.mp hny
      obtain ⟨nzv, hnz⟩ := Option.isSome_iff_exists.mp hnz
      obtain ⟨pax, ha1⟩ := Option.isSome_iff_exists.mp a1
      obtain ⟨pay, ha2⟩ := Option.isSome_iff_exists.mp a2
      obtain ⟨paz, ha3⟩ := Option.isSome_iff_exists.mp a3
      obtain ⟨pbx, hb1⟩ := Option.isSome_iff_exists.mp b1
      obtain ⟨pby, hb2⟩ := Option.isSome_iff_exists.mp b2
      obtain ⟨pbz, hb3⟩ := Option.isSome_iff_exists.mp b3
      constructor
      · refine ⟨?_, ?_, ?_, a4, a5, a6⟩ <;> dsimp only <;>
          (simp only [hsA]; simp only [hnx, hny, hnz, ha1, ha2, ha3]; simp [jsSub, jsMul])
      · refine ⟨?_, ?_, ?_, b4, b5, b6⟩ <;> dsimp only <;>
          (simp only [hsB]; simp only [hnx, hny, hnz, hb1, hb2, hb3]; simp [jsAdd, jsMul])
    case isFalse => exact ⟨⟨a1, a2, a3, a4, a5, a6⟩, ⟨b1, b2, b3, b4, b5, b6⟩⟩
  case isFalse => exact ⟨⟨a1, a2, a3, a4, a5, a6⟩, ⟨b1, b2, b3, b4, b5, b6⟩⟩

theorem velocityResolution_finite (a b : OrbJs) (nx ny nz orat : JsQ) (ma mb tot : ℚ)
    (hnx : nx.isSome) (hny : ny.isSome) (hnz : nz.isSome)
    (hA : a.Finite) (hB : b.Finite) :
    (velocityResolution a b nx ny nz orat ma mb tot).1.Finite ∧
    (velocityResolution a b nx ny nz orat ma mb tot).2.Finite := by
  obtain ⟨a1, a2, a3, a4, a5, a6⟩ := hA
  obtain ⟨b1, b2, b3, b4, b5, b6⟩ := hB
  obtain ⟨nxv, hnx⟩ := Option.isSome_iff_exists.mp hnx
  obtain ⟨nyv, hny⟩ := Option.isSome_iff_exists.mp hny
  obtain ⟨nzv, hnz⟩ := Option.isSome_iff_exists.mp hnz
  obtain ⟨avx, ha4⟩ := Option.isSome_iff_exists.mp a4
  obtain ⟨avy, ha5⟩ := Option.isSome_iff_exists.mp a5
  obtain ⟨avz, ha6⟩ := Option.isSome_iff_exists.mp a6
  obtain ⟨bvx, hb4⟩ := Option.isSome_iff_exists.mp b4
  obtain ⟨bvy, hb5⟩ := Option.isSome_iff_exists.mp b5
  obtain ⟨bvz, hb6⟩ := Option.isSome_iff_exists.mp b6
  rw [velocityResolution]
  dsimp only
  split
  case isTrue =>
    split
    case isTrue hg =>
      rw [Bool.and_eq_true] at hg
      obtain ⟨hiA, hiB⟩ := hg
      obtain ⟨iav, hiA⟩ := Option.isSome_iff_exists.mp hiA
      obtain ⟨ibv, hiB⟩ := Option.isSome_iff_exists.mp hiB
      constructor
      · refine ⟨a1, a2, a3, ?_, ?_, ?_⟩ <;> dsimp only <;>
          (simp only [hiA]; simp only [hnx, hny, hnz, ha4, ha5, ha6]; simp [jsSub, jsMul])
      · refine ⟨b1, b2, b3, ?_, ?_, ?_⟩ <;> dsimp only <;>
          (simp only [hiB]; simp only [hnx, hny, hnz, hb4, hb5, hb6]; simp [jsAdd, jsMul])
    case isFalse => exact ⟨⟨a1, a2, a3, a4, a5, a6⟩, ⟨b1, b2, b3, b4, b5, b6⟩⟩
  case isFalse =>
    split
    case isTrue =>
      split
      case isTrue hg =>
        rw [Bool.and_eq_true] at hg
        obtain ⟨hiA, hiB⟩ := hg
        obtain ⟨iav, hiA⟩ := Option.isSome_iff_exists.mp hiA
        obtain ⟨ibv, hiB⟩ := Option.isSome_iff_exists.mp hiB
        constructor
        · refine ⟨a1, a2, a3, ?_, ?_, ?_⟩ <;> dsimp only <;>
            (simp only [hiA]; simp only [hnx, hny, hnz, ha4, ha5, ha6]; simp [jsSub, jsMul])
        · refine ⟨b1, b2, b3, ?_, ?_, ?_⟩ <;> dsimp only <;>
            (simp only [hiB]; simp only [hnx, hny, hnz, hb4, hb5, hb6]; simp [jsAdd, jsMul])
      case isFalse => exact ⟨⟨a1, a2, a3, a4, a5, a6⟩, ⟨b1, b2, b3, b4, b5, b6⟩⟩
    case isFalse => exact ⟨⟨a1, a2, a3, a4, a5, a6⟩, ⟨b1, b2, b3, b4, b5, b6⟩⟩

/-- C6: finiteness invariant - an orb whose position and velocity are
finite before a physics update keeps them finite afterwards, for the
three guarded update kinds: position integration
(`OrbMovement.updatePosition`, which also guards `deltaTime` itself),
mouse repulsion (the per-orb body of `MouseRepulsion.applyRepulsion`,
whose `deltaTime` is the finite frame time computed by
`useAnimationLoop`), and orb-orb collision (position correction and both
impulse branches of `OrbOrbCollision.resolveCollisions`); each guarded
commit checks `isFinite` and a failed check keeps the prior value.
`0 < distR` records that the `Math.sqrt(distSq)` value supplied to the
collision pair is positive, as it is in every run of the source
(`distSq >= 0.001` in the branch that evaluates it). -/
theorem physics_updates_preserve_finiteness :
    (∀ (o : OrbJs) (dt : JsQ), o.Finite → (updatePositionJs o dt).Finite) ∧
    (∀ (o : OrbJs) (mx my : JsQ) (dt distR rad str : ℚ), o.Finite →
      (applyRepulsionStep o mx my dt distR rad str).Finite) ∧
    (∀ (A B : OrbJs) (vpc : ViewportCells) (distR rnx rny rnz : ℚ), 0 < distR →
      A.Finite → B.Finite →
      (resolveCollisionPair A B vpc distR rnx rny rnz).1.Finite ∧
      (resolveCollisionPair A B vpc distR rnx rny rnz).2.Finite) := by
  refine ⟨updatePosition_finite, applyRepulsionStep_finite, ?_⟩
  intro A B vpc distR rnx rny rnz hdist hA hB
  rw [resolveCollisionPair]
  dsimp only
  split
  case isFalse => exact ⟨hA, hB⟩
  case isTrue hcol =>
    split
    case isTrue hdeg =>
      exact velocityResolution_finite _ _ _ _ _ _ _ _ _ rfl rfl rfl
        (positionCorrection_finite A B _ _ _ _ _ _ _ _ vpc hA hB).1
        (positionCorrection_finite A B _ _ _ _ _ _ _ _ vpc hA hB).2
    case isFalse hdeg =>
      have hS := jsLt_true_isSome_left hcol
      simp only [jsAdd_isSome_iff, jsMul_isSome_iff] at hS
      obtain ⟨⟨⟨hdx, -⟩, ⟨hdy, -⟩⟩, ⟨hdz, -⟩⟩ := hS
      obtain ⟨dxv, hdx⟩ := Option.isSome_iff_exists.mp hdx
      obtain ⟨dyv, hdy⟩ := Option.isSome_iff_exists.mp hdy
      obtain ⟨dzv, hdz⟩ := Option.isSome_iff_exists.mp hdz
      rw [hdx, hdy, hdz]
      have hs0 : ¬ (dxv * dxv + dyv * dyv + dzv * dzv < 0) :=
        not_lt.mpr (by nlinarith [mul_self_nonneg dxv, mul_self_nonneg dyv, mul_self_nonneg dzv])
      simp only [jsMul, jsAdd, jsSqrtP, if_neg hs0, jsDiv, if_neg hdist.ne']
      exact velocityResolution_finite _ _ _ _ _ _ _ _ _ rfl rfl rfl
        (positionCorrection_finite A B _ _ _ _ _ _ _ _ vpc hA hB).1
        (positionCorrection_finite A B _ _ _ _ _ _ _ _ vpc hA hB).2

/-- Witness for C6: all three preservation statements applied to finite
concrete inputs (the head-on pair for the collision case). -/
theorem physics_updates_preserve_finiteness_witness :
    (OrbJs.mk (some 5) (some 6) (some 1) (some 2) (some 3) (some 0) 1).Finite ∧
    (updatePositionJs (OrbJs.mk (some 5) (some 6) (some 1) (some 2) (some 3) (some 0) 1)
      (some (1/60))).Finite ∧
    (applyRepulsionStep (OrbJs.mk (some 5) (some 6) (some 1) (some 2) (some 3) (some 0) 1)
      (some 0) (some 0) (1/60) 2 150 80).Finite ∧
    (resolveCollisionPair orbA0 orbB0 vpcUnit 1 0 0 0).1.Finite ∧
    (resolveCollisionPair orbA0 orbB0 vpcUnit 1 0 0 0).2.Finite :=
  ⟨⟨rfl, rfl, rfl, rfl, rfl, rfl⟩,
   physics_updates_preserve_finiteness.1 _ _ ⟨rfl, rfl, rfl, rfl, rfl, rfl⟩,
   physics_updates_preserve_finiteness.2.1 _ _ _ _ _ _ _ ⟨rfl, rfl, rfl, rfl, rfl, rfl⟩,
   (physics_updates_preserve_finiteness.2.2 orbA0 orbB0 vpcUnit 1 0 0 0 (by norm_num)
     ⟨rfl, rfl, rfl, rfl, rfl, rfl⟩ ⟨rfl, rfl, rfl, rfl, rfl, rfl⟩).1,
   (physics_updates_preserve_finiteness.2.2 orbA0 orbB0 vpcUnit 1 0 0 0 (by norm_num)
     ⟨rfl, rfl, rfl, rfl, rfl, rfl⟩ ⟨rfl, rfl, rfl, rfl, rfl, rfl⟩).2⟩
